import Mathlib

/-!
# Verification of the durable local data store

A shallow embedding of the repository's data-store subsystem
(`src/storage/data-store.ts` together with the record model in
`src/models`), and proofs settling the frozen claims about it.

Modelling conventions:

* JavaScript `Date` values are modelled as `JSDate := Option Nat`:
  `some t` is a valid date `t` milliseconds after the Unix epoch, `none` is
  an Invalid Date.  Dates before 1970 (negative timestamps) are outside the
  model; no claim involves them.
* The platform functions `Date.prototype.toISOString` and the `Date`
  constructor's ISO-string parsing are not repository code; they are
  implemented here faithfully for the year range 1970–9999 (the basic
  `YYYY-MM-DDTHH:MM:SS.mmmZ` format produced by `toISOString`).
* JSON text is modelled at the granularity of `JSON.parse`: a byte string
  on disk is either a string that parses to a JSON value `v`
  (`Bytes.json v`) or a string rejected by `JSON.parse`
  (`Bytes.malformed`, e.g. `"BAD"`).  The ECMA-262 guarantee
  `JSON.parse (JSON.stringify v) = v` makes `JSON.stringify` the map
  `Bytes.json`.  Key order inside objects follows the source's
  construction order.
* JavaScript `Record<string, _>` objects are modelled as association
  lists in insertion order; assignment to an existing key updates the
  value in place and a new key is appended, exactly as in JS.
-/

/-! ## The platform date codec (`Date.toISOString` / `new Date(isoString)`)

`toISOString` renders the UTC calendar fields of a timestamp; the `Date`
constructor parses them back.  The Gregorian calendar computation below is
the standard one: days are converted to a (year, month, day) triple using
the leap-year rule `(y % 4 = 0 ∧ y % 100 ≠ 0) ∨ y % 400 = 0`.
-/

/-- Gregorian leap-year test. -/
def isLeap (y : Nat) : Bool :=
  decide ((y % 4 = 0 ∧ y % 100 ≠ 0) ∨ y % 400 = 0)

/-- Number of leap years in `[0, y)` (year 0 of the proleptic Gregorian
calendar is a leap year). -/
def leapsBefore (y : Nat) : Nat :=
  (y + 3) / 4 + (y + 399) / 400 - (y + 99) / 100

/-- Days from 0000-01-01 to the first day of year `y`. -/
def yearStartDays (y : Nat) : Nat :=
  365 * y + leapsBefore y

/-- Days from 0000-01-01 to 1970-01-01 (the Unix epoch). -/
def epochDays : Nat := 719528

/-- Cumulative days before month `m` (1-based) in a year; `m = 13` gives
the length of the year. -/
def monthStart (leap : Bool) (m : Nat) : Nat :=
  let k := if leap then 1 else 0
  match m with
  | 1 => 0
  | 2 => 31
  | 3 => 59 + k
  | 4 => 90 + k
  | 5 => 120 + k
  | 6 => 151 + k
  | 7 => 181 + k
  | 8 => 212 + k
  | 9 => 243 + k
  | 10 => 273 + k
  | 11 => 304 + k
  | 12 => 334 + k
  | _ => 365 + k

/-- Month (1-based) of a given day-of-year. -/
def monthOf (leap : Bool) (doy : Nat) : Nat :=
  if monthStart leap 12 ≤ doy then 12
  else if monthStart leap 11 ≤ doy then 11
  else if monthStart leap 10 ≤ doy then 10
  else if monthStart leap 9 ≤ doy then 9
  else if monthStart leap 8 ≤ doy then 8
  else if monthStart leap 7 ≤ doy then 7
  else if monthStart leap 6 ≤ doy then 6
  else if monthStart leap 5 ≤ doy then 5
  else if monthStart leap 4 ≤ doy then 4
  else if monthStart leap 3 ≤ doy then 3
  else if monthStart leap 2 ≤ doy then 2
  else 1

/-- Find, starting from a lower bound `y`, the year whose day range
contains absolute day `D`; `fuel` bounds the upward search. -/
def yearSearch (D : Nat) : Nat → Nat → Nat
  | 0, y => y
  | fuel + 1, y => if yearStartDays (y + 1) ≤ D then yearSearch D fuel (y + 1) else y

/-- Year containing absolute day `D` (days since 0000-01-01). -/
def yearOf (D : Nat) : Nat := yearSearch D 64 (D / 366)

/-- Convert days since the Unix epoch into a `(year, month, day)` triple. -/
def civilFromDays (days : Nat) : Nat × Nat × Nat :=
  let D := days + epochDays
  let y := yearOf D
  let doy := D - yearStartDays y
  let m := monthOf (isLeap y) doy
  (y, m, doy - monthStart (isLeap y) m + 1)

/-- Convert a `(year, month, day)` triple into days since the Unix epoch. -/
def daysFromCivil (y m d : Nat) : Nat :=
  yearStartDays y + monthStart (isLeap y) m + (d - 1) - epochDays

/-- The decimal digit character for `n % 10`. -/
def digitChar (n : Nat) : Char := Char.ofNat (48 + n % 10)

/-- Numeric value of a decimal digit character. -/
def digitVal (c : Char) : Nat := c.toNat - 48

/-- Four-digit zero-padded decimal rendering (for `n < 10000`). -/
def pad4 (n : Nat) : List Char :=
  [digitChar (n / 1000), digitChar (n / 100), digitChar (n / 10), digitChar n]

/-- Three-digit zero-padded decimal rendering (for `n < 1000`). -/
def pad3 (n : Nat) : List Char :=
  [digitChar (n / 100), digitChar (n / 10), digitChar n]

/-- Two-digit zero-padded decimal rendering (for `n < 100`). -/
def pad2 (n : Nat) : List Char :=
  [digitChar (n / 10), digitChar n]

/-- Largest modelled timestamp: the first millisecond of year 10000.
`Date.prototype.toISOString` uses the basic 24-character format exactly
for timestamps below this bound. -/
def isoLimit : Nat := 253402300800000

/-- `Date.prototype.toISOString` on a valid timestamp, as a character
list: `YYYY-MM-DDTHH:MM:SS.mmmZ`. -/
def toISOChars (t : Nat) : List Char :=
  let p := civilFromDays (t / 86400000)
  pad4 p.1 ++ '-' :: pad2 p.2.1 ++ '-' :: pad2 p.2.2 ++
    'T' :: pad2 (t / 3600000 % 24) ++ ':' :: pad2 (t / 60000 % 60) ++
    ':' :: pad2 (t / 1000 % 60) ++ '.' :: pad3 (t % 1000) ++ ['Z']

/-- `Date.prototype.toISOString` on a valid timestamp. -/
def toISOString (t : Nat) : String := String.mk (toISOChars t)

/-- Parsing of the 24-character ISO format by the `Date` constructor:
returns the timestamp, or `none` (an Invalid Date) when the shape or the
field ranges are wrong. -/
def parseISOChars : List Char → Option Nat
  | [y3, y2, y1, y0, '-', a1, a0, '-', b1, b0, 'T', h1, h0, ':', i1, i0, ':',
     s1, s0, '.', p2, p1, p0, 'Z'] =>
    let y := 1000 * digitVal y3 + 100 * digitVal y2 + 10 * digitVal y1 + digitVal y0
    let m := 10 * digitVal a1 + digitVal a0
    let d := 10 * digitVal b1 + digitVal b0
    let hr := 10 * digitVal h1 + digitVal h0
    let mi := 10 * digitVal i1 + digitVal i0
    let se := 10 * digitVal s1 + digitVal s0
    let ms := 100 * digitVal p2 + 10 * digitVal p1 + digitVal p0
    if 1 ≤ m ∧ m ≤ 12 ∧ 1 ≤ d ∧ d ≤ 31 ∧ hr < 24 ∧ mi < 60 ∧ se < 60 then
      some (daysFromCivil y m d * 86400000 + hr * 3600000 + mi * 60000 +
        se * 1000 + ms)
    else none
  | _ => none

/-! ### Correctness of the date codec -/

theorem leapsBefore_sub_le (y : Nat) : (y + 99) / 100 ≤ (y + 3) / 4 + (y + 399) / 400 := by
  omega

theorem yearStartDays_mono {y z : Nat} (h : y ≤ z) :
    yearStartDays y ≤ yearStartDays z := by
  unfold yearStartDays leapsBefore
  omega

theorem yearStartDays_le (y : Nat) : yearStartDays y ≤ 366 * y := by
  unfold yearStartDays leapsBefore
  omega

theorem ge_365_mul (y : Nat) : 365 * y ≤ yearStartDays y := by
  unfold yearStartDays leapsBefore
  omega

/-- A year spans 365 days, or 366 when it is a leap year. -/
theorem yearStartDays_succ (y : Nat) :
    yearStartDays (y + 1) = yearStartDays y + (if isLeap y then 366 else 365) := by
  unfold yearStartDays leapsBefore isLeap
  rcases Nat.lt_or_ge (y % 4) 4 with _ | _ <;>
    simp only [decide_eq_true_eq] <;> split <;> omega

/-- The length of year `y` is `monthStart (isLeap y) 13`. -/
theorem yearStartDays_succ13 (y : Nat) :
    yearStartDays (y + 1) = yearStartDays y + monthStart (isLeap y) 13 := by
  rw [yearStartDays_succ]
  cases hL : isLeap y <;> simp [hL, monthStart]

theorem monthStart13_le (leap : Bool) : monthStart leap 13 ≤ 366 := by
  cases leap <;> decide

theorem yearSearch_eq (D : Nat) (Y : Nat)
    (hY1 : yearStartDays Y ≤ D) (hY2 : D < yearStartDays (Y + 1)) :
    ∀ fuel y, y ≤ Y → Y - y ≤ fuel → yearSearch D fuel y = Y := by
  intro fuel
  induction fuel with
  | zero =>
    intro y hy hf
    have : y = Y := by omega
    simp [yearSearch, this]
  | succ n ih =>
    intro y hy hf
    rcases Nat.eq_or_lt_of_le hy with rfl | hlt
    · have : ¬ yearStartDays (y + 1) ≤ D := by omega
      simp [yearSearch, this]
    · have hstep : yearStartDays (y + 1) ≤ D := by
        exact le_trans (yearStartDays_mono (by omega)) hY1
      simp only [yearSearch, hstep, if_pos]
      exact ih (y + 1) (by omega) (by omega)

/-- Characterization of `yearOf` on the modelled range. -/
theorem yearOf_spec (D : Nat) (hD : D < yearStartDays 10000) :
    yearStartDays (yearOf D) ≤ D ∧ D < yearStartDays (yearOf D + 1) := by
  -- the true year Y exists: take the largest y with yearStartDays y ≤ D
  have h10000 : yearStartDays 10000 = 3652425 := by decide
  have hex : ∃ y, yearStartDays y ≤ D ∧ D < yearStartDays (y + 1) := by
    by_contra hne
    push_neg at hne
    have hall : ∀ y, yearStartDays y ≤ D := by
      intro y
      induction y with
      | zero => exact Nat.zero_le D
      | succ n ihn => exact hne n ihn
    have h1 := hall 10001
    have h2 := yearStartDays_mono (show 10000 ≤ 10001 by omega)
    omega
  obtain ⟨Y, hY1, hY2⟩ := hex
  have hYlow : D / 366 ≤ Y := by
    by_contra hc
    push_neg at hc
    have h0 : Y + 1 ≤ D / 366 := by omega
    have h1 : yearStartDays (Y + 1) ≤ yearStartDays (D / 366) := yearStartDays_mono h0
    have h2 : yearStartDays (D / 366) ≤ 366 * (D / 366) := yearStartDays_le _
    have h3 : 366 * (D / 366) ≤ D := by omega
    omega
  have hYhigh : Y ≤ D / 365 := by
    have := ge_365_mul Y
    omega
  have hfuel : Y - D / 366 ≤ 64 := by
    have hD' : D < 3652425 := by omega
    omega
  have := yearSearch_eq D Y hY1 hY2 64 (D / 366) hYlow hfuel
  unfold yearOf
  rw [this]
  exact ⟨hY1, hY2⟩

set_option maxRecDepth 4000 in
theorem monthOf_spec (leap : Bool) : ∀ doy < 366,
    1 ≤ monthOf leap doy ∧ monthOf leap doy ≤ 12 ∧
      monthStart leap (monthOf leap doy) ≤ doy ∧
      (doy < monthStart leap 13 →
        doy < monthStart leap (monthOf leap doy + 1)) := by
  cases leap <;> decide

theorem month_span_le (leap : Bool) (m : Nat) (h1 : 1 ≤ m) (h2 : m ≤ 12) :
    monthStart leap (m + 1) ≤ monthStart leap m + 31 := by
  interval_cases m <;> cases leap <;> simp [monthStart]

theorem digitVal_digitChar (n : Nat) : digitVal (digitChar n) = n % 10 := by
  have h : n % 10 < 10 := Nat.mod_lt _ (by omega)
  unfold digitChar digitVal
  set k := n % 10 with hk
  interval_cases k <;> rfl

/-- `daysFromCivil` is a left inverse of `civilFromDays` on the modelled
range, and the produced calendar fields are in range. -/
theorem civil_inverse (days : Nat) (h : days < 2932897) :
    daysFromCivil (civilFromDays days).1 (civilFromDays days).2.1 (civilFromDays days).2.2
        = days ∧
      (civilFromDays days).1 < 10000 ∧
      1 ≤ (civilFromDays days).2.1 ∧ (civilFromDays days).2.1 ≤ 12 ∧
      1 ≤ (civilFromDays days).2.2 ∧ (civilFromDays days).2.2 ≤ 31 := by
  have hep : epochDays = 719528 := rfl
  have hDlt : days + epochDays < yearStartDays 10000 := by
    have hc : yearStartDays 10000 = 3652425 := by decide
    omega
  obtain ⟨hy1, hy2⟩ := yearOf_spec (days + epochDays) hDlt
  have hstep := yearStartDays_succ13 (yearOf (days + epochDays))
  have hdoylt : days + epochDays - yearStartDays (yearOf (days + epochDays)) <
      monthStart (isLeap (yearOf (days + epochDays))) 13 := by
    omega
  have h366 := monthStart13_le (isLeap (yearOf (days + epochDays)))
  obtain ⟨hm1, hm2, hm3, hm4'⟩ :=
    monthOf_spec (isLeap (yearOf (days + epochDays)))
      (days + epochDays - yearStartDays (yearOf (days + epochDays)))
      (by omega)
  have hm4 := hm4' hdoylt
  have hspan := month_span_le (isLeap (yearOf (days + epochDays)))
    (monthOf (isLeap (yearOf (days + epochDays)))
      (days + epochDays - yearStartDays (yearOf (days + epochDays)))) hm1 hm2
  have hylt : yearOf (days + epochDays) < 10000 := by
    by_contra hc
    push_neg at hc
    have := yearStartDays_mono hc
    omega
  have hyge : 1970 ≤ yearOf (days + epochDays) := by
    by_contra hc
    push_neg at hc
    have h1 : yearOf (days + epochDays) + 1 ≤ 1970 := by omega
    have := yearStartDays_mono h1
    have h1970 : yearStartDays 1970 = epochDays := by decide
    omega
  simp only [civilFromDays, daysFromCivil]
  refine ⟨by omega, hylt, hm1, hm2, by omega, by omega⟩

/-- The date codec round-trips at millisecond precision on the modelled
range. -/
theorem parseISO_toISO (t : Nat) (ht : t < isoLimit) :
    parseISOChars (toISOChars t) = some t := by
  have hlim : t < 253402300800000 := ht
  have hdayslt : t / 86400000 < 2932897 := by omega
  obtain ⟨hinv, hylt, hm1, hm2, hd1, hd31⟩ := civil_inverse (t / 86400000) hdayslt
  unfold toISOChars
  simp only [pad4, pad3, pad2, List.cons_append, List.nil_append, List.append_assoc]
  simp only [parseISOChars, digitVal_digitChar]
  have hrec4 : ∀ n : Nat, n < 10000 →
      1000 * (n / 1000 % 10) + 100 * (n / 100 % 10) + 10 * (n / 10 % 10) + n % 10 = n := by
    intro n hn; omega
  have hrec2 : ∀ n : Nat, n < 100 → 10 * (n / 10 % 10) + n % 10 = n := by
    intro n hn; omega
  have hrec3 : ∀ n : Nat, n < 1000 →
      100 * (n / 100 % 10) + 10 * (n / 10 % 10) + n % 10 = n := by
    intro n hn; omega
  rw [hrec4 _ (by omega), hrec2 _ (by omega), hrec2 _ (by omega),
    hrec2 _ (by omega), hrec2 _ (by omega), hrec2 _ (by omega), hrec3 _ (by omega)]
  have hcond : 1 ≤ (civilFromDays (t / 86400000)).2.1 ∧
      (civilFromDays (t / 86400000)).2.1 ≤ 12 ∧
      1 ≤ (civilFromDays (t / 86400000)).2.2 ∧
      (civilFromDays (t / 86400000)).2.2 ≤ 31 ∧
      t / 3600000 % 24 < 24 ∧ t / 60000 % 60 < 60 ∧ t / 1000 % 60 < 60 := by
    refine ⟨hm1, hm2, hd1, hd31, ?_, ?_, ?_⟩ <;> omega
  rw [if_pos hcond, hinv]
  simp only [Option.some.injEq]
  omega

/-! ## JSON values and the byte layer -/

/-- A JSON value.  JSON numbers are modelled as integers (the only numbers
the schema stores — `version` and `feedbackRating` — are integers). -/
inductive JValue where
  | jnull : JValue
  | jbool : Bool → JValue
  | jnum : Int → JValue
  | jstr : String → JValue
  | jarr : List JValue → JValue
  | jobj : List (String × JValue) → JValue

/-- A byte string on disk, modelled at the granularity of `JSON.parse`
(a platform function, not repository code): `json v` stands for any byte
string that `JSON.parse` decodes to the value `v` — in particular the
output of `JSON.stringify` on `v` — and `malformed` stands for any byte
string `JSON.parse` rejects with a `SyntaxError` (e.g. `"BAD"`).  By the
ECMA-262 round-trip guarantee `JSON.parse (JSON.stringify v) = v`,
`JSON.stringify` is the map `Bytes.json`. -/
inductive Bytes where
  | json : JValue → Bytes
  | malformed : Bytes

/-- The object-level effect of `JSON.stringify(x, null, 2)`. -/
def jsonStringify (v : JValue) : Bytes := Bytes.json v

/-! ## The record model (`src/models`) -/

/-- A JavaScript `Date` value: `some t` is the date `t` milliseconds after
the Unix epoch, `none` is an Invalid Date.  Dates before 1970 are outside
the model. -/
abbrev JSDate := Option Nat

/-- `Capture.type: 'quick' | 'interrupt'`. -/
inductive CaptureType where
  | quick : CaptureType
  | interrupt : CaptureType
deriving Repr, DecidableEq

def CaptureType.toStr : CaptureType → String
  | .quick => "quick"
  | .interrupt => "interrupt"

def CaptureType.ofStr (s : String) : CaptureType :=
  if s = "interrupt" then .interrupt else .quick

/-- `ContextElements` (`src/models/capture.ts`): four optional string
arrays plus the verbatim original input. -/
structure ContextElements where
  intent : Option (List String)
  lastAction : Option (List String)
  openLoops : Option (List String)
  nextAction : Option (List String)
  originalInput : String
deriving Repr, DecidableEq

/-- `Session` (`src/models/session.ts`). -/
structure Session where
  id : String
  projectId : String
  entryTime : JSDate
  exitTime : Option JSDate
  captureId : Option String
  feedbackRating : Option Int
  feedbackTime : Option JSDate
deriving Repr, DecidableEq

/-- `Capture` (`src/models/capture.ts`). -/
structure Capture where
  id : String
  sessionId : String
  type : CaptureType
  originalInput : String
  contextElements : ContextElements
  timestamp : JSDate
deriving Repr, DecidableEq

/-- `StorageSchema` (`src/models/storage.ts`).  JavaScript
`Record<string, _>` objects are association lists in insertion order. -/
structure StorageSchema where
  sessions : List (String × Session)
  sessionsByProject : List (String × List String)
  captures : List (String × Capture)
  version : Int
deriving Repr, DecidableEq

/-- `CURRENT_SCHEMA_VERSION = 1`. -/
def CURRENT_SCHEMA_VERSION : Int := 1

/-- `createEmptySchema()`. -/
def createEmptySchema : StorageSchema :=
  { sessions := [], sessionsByProject := [], captures := [],
    version := CURRENT_SCHEMA_VERSION }

/-! ## Association-list operations (JavaScript object semantics) -/

/-- Property lookup `o[k]` on an object. -/
def lookupA {α : Type} (k : String) : List (String × α) → Option α
  | [] => none
  | (k', v) :: rest => if k' = k then some v else lookupA k rest

/-- Property assignment `o[k] = v`: an existing key keeps its position and
gets the new value; a new key is appended. -/
def updA {α : Type} (k : String) (v : α) : List (String × α) → List (String × α)
  | [] => [(k, v)]
  | (k', v') :: rest => if k' = k then (k, v) :: rest else (k', v') :: updA k v rest

theorem lookupA_updA_self {α : Type} (k : String) (v : α) :
    ∀ l : List (String × α), lookupA k (updA k v l) = some v := by
  intro l
  induction l with
  | nil => simp [lookupA, updA]
  | cons hd tl ih =>
    obtain ⟨k', v'⟩ := hd
    by_cases h : k' = k
    · simp [lookupA, updA, h]
    · simp [lookupA, updA, h, ih]

theorem lookupA_updA_ne {α : Type} (k j : String) (v : α) (hne : j ≠ k) :
    ∀ l : List (String × α), lookupA j (updA k v l) = lookupA j l := by
  intro l
  have hkj : ¬ (k = j) := fun hh => hne hh.symm
  induction l with
  | nil => simp [lookupA, updA, hkj]
  | cons hd tl ih =>
    obtain ⟨k', v'⟩ := hd
    by_cases h : k' = k
    · have hk'j : ¬ (k' = j) := by rw [h]; exact hkj
      simp [updA, lookupA, h, hkj, hk'j]
    · by_cases h2 : k' = j <;> simp [updA, lookupA, h, h2, ih, hne]

/-! ## The Serializer (`DataStore.serialize` / `DataStore.deserialize`)

`serialize` is embedded per the source: object keys are emitted in the
construction order of the source's object literals/spreads, and a key
whose value is JavaScript `undefined` is omitted, which is exactly what
`JSON.stringify` does to the objects the source builds.  `deserialize`
reads fields by name, so its behaviour does not depend on key order.
-/

/-- `DataStore.safeISOString`: `undefined` for a missing or Invalid Date,
otherwise the ISO string. -/
def safeISOString : Option JSDate → Option String
  | some (some t) => some (toISOString t)
  | _ => none

/-- Entry list for a key that is omitted when its value is `undefined`. -/
def optEntry (k : String) : Option JValue → List (String × JValue)
  | none => []
  | some v => [(k, v)]

/-- The session part of `DataStore.serialize`:
`{ ...s, entryTime: safeISOString(s.entryTime) ?? new Date().toISOString(),
   exitTime: safeISOString(s.exitTime), feedbackTime: safeISOString(s.feedbackTime) }`.
`now` is the clock read by the `new Date()` fallback. -/
def serializeSession (now : Nat) (s : Session) : JValue :=
  .jobj ([("id", JValue.jstr s.id), ("projectId", JValue.jstr s.projectId),
    ("entryTime", JValue.jstr ((safeISOString (some s.entryTime)).getD (toISOString now)))] ++
    optEntry "exitTime" ((safeISOString s.exitTime).map .jstr) ++
    optEntry "captureId" (s.captureId.map .jstr) ++
    optEntry "feedbackRating" (s.feedbackRating.map .jnum) ++
    optEntry "feedbackTime" ((safeISOString s.feedbackTime).map .jstr))

/-- JSON form of a `ContextElements` record (passes through `serialize`
inside the capture spread; `JSON.stringify` omits the absent arrays). -/
def serializeCE (ce : ContextElements) : JValue :=
  .jobj (optEntry "intent" (ce.intent.map (fun l => .jarr (l.map .jstr))) ++
    optEntry "lastAction" (ce.lastAction.map (fun l => .jarr (l.map .jstr))) ++
    optEntry "openLoops" (ce.openLoops.map (fun l => .jarr (l.map .jstr))) ++
    optEntry "nextAction" (ce.nextAction.map (fun l => .jarr (l.map .jstr))) ++
    [("originalInput", JValue.jstr ce.originalInput)])

/-- The capture part of `DataStore.serialize`:
`{ ...c, timestamp: safeISOString(c.timestamp) ?? new Date().toISOString() }`. -/
def serializeCapture (now : Nat) (c : Capture) : JValue :=
  .jobj [("id", JValue.jstr c.id), ("sessionId", JValue.jstr c.sessionId),
    ("type", JValue.jstr c.type.toStr),
    ("originalInput", JValue.jstr c.originalInput),
    ("contextElements", serializeCE c.contextElements),
    ("timestamp", JValue.jstr ((safeISOString (some c.timestamp)).getD (toISOString now)))]

/-- `DataStore.serialize`: `{ ...this.data, sessions: …, captures: … }`
with every `Date` rendered through `safeISOString`. -/
def serializeSchema (now : Nat) (d : StorageSchema) : JValue :=
  .jobj [("sessions", JValue.jobj (d.sessions.map (fun p => (p.1, serializeSession now p.2)))),
    ("sessionsByProject", JValue.jobj (d.sessionsByProject.map (fun p => (p.1, JValue.jarr (p.2.map .jstr))))),
    ("captures", JValue.jobj (d.captures.map (fun p => (p.1, serializeCapture now p.2)))),
    ("version", JValue.jnum d.version)]

/-- `Object.entries`, as used by `deserialize` (non-objects contribute no
entries). -/
def objEntries : JValue → List (String × JValue)
  | .jobj kvs => kvs
  | _ => []

/-- Property access `v[k]` (`undefined`, i.e. `none`, when absent or when
`v` is not an object). -/
def getField (v : JValue) (k : String) : Option JValue :=
  lookupA k (objEntries v)

/-- JavaScript truthiness of a possibly-`undefined` JSON value, as used by
`session.exitTime ? … : undefined`. -/
def jsTruthy : Option JValue → Bool
  | none => false
  | some .jnull => false
  | some (.jbool b) => b
  | some (.jnum n) => n != 0
  | some (.jstr s) => s != ""
  | some (.jarr _) => true
  | some (.jobj _) => true

/-- `new Date(x)` on a JSON value (or `undefined`): strings are parsed as
ISO-8601, numbers are millisecond timestamps, `null`/booleans coerce to
a number, everything else is an Invalid Date. -/
def jsNewDate : Option JValue → JSDate
  | some (.jstr s) => parseISOChars s.data
  | some (.jnum n) => if 0 ≤ n then some n.toNat else none
  | some .jnull => some 0
  | some (.jbool b) => some (if b then 1 else 0)
  | _ => none

/-- Coercion of a JSON value into the typed `String` fields that the
source's unchecked `as` casts merely relabel.  The source keeps an
ill-typed value as-is; the typed model coerces it (to `""`).  This never
changes `deserialize`'s success/error verdict, and on every value
`serialize` produces the field is a string, so no claim can observe the
difference. -/
def asStr : JValue → String
  | .jstr s => s
  | _ => ""

/-- Typed reading of an optional string-array field (`ContextElements`
arrays); same coercion caveat as `asStr`. -/
def asStrListOpt : JValue → Option (List String)
  | .jarr l => some (l.map asStr)
  | _ => none

/-- Typed reading of `sessionsByProject`'s entry values. -/
def asStrList : JValue → List String
  | .jarr l => l.map asStr
  | _ => []

/-- The session part of `deserialize`: `{ ...s, entryTime: new Date(…),
exitTime: s.exitTime ? new Date(…) : undefined, feedbackTime: … }`. -/
def deserializeSession (v : JValue) : Session :=
  { id := ((getField v "id").map asStr).getD ""
    projectId := ((getField v "projectId").map asStr).getD ""
    entryTime := jsNewDate (getField v "entryTime")
    exitTime := if jsTruthy (getField v "exitTime") then
        some (jsNewDate (getField v "exitTime")) else none
    captureId := (getField v "captureId").map asStr
    feedbackRating := (getField v "feedbackRating").bind (fun x =>
      match x with | .jnum n => some n | _ => none)
    feedbackTime := if jsTruthy (getField v "feedbackTime") then
        some (jsNewDate (getField v "feedbackTime")) else none }

/-- Typed reading of a `ContextElements` value (passed through untouched
by the source's spread). -/
def deserializeCE (v : JValue) : ContextElements :=
  { intent := (getField v "intent").bind asStrListOpt
    lastAction := (getField v "lastAction").bind asStrListOpt
    openLoops := (getField v "openLoops").bind asStrListOpt
    nextAction := (getField v "nextAction").bind asStrListOpt
    originalInput := ((getField v "originalInput").map asStr).getD "" }

/-- The capture part of `deserialize`: `{ ...c, timestamp: new Date(…) }`. -/
def deserializeCapture (v : JValue) : Capture :=
  { id := ((getField v "id").map asStr).getD ""
    sessionId := ((getField v "sessionId").map asStr).getD ""
    type := CaptureType.ofStr (((getField v "type").map asStr).getD "")
    originalInput := ((getField v "originalInput").map asStr).getD ""
    contextElements := deserializeCE ((getField v "contextElements").getD .jnull)
    timestamp := jsNewDate (getField v "timestamp") }

/-- The two ways `deserialize` can fail. -/
inductive DeserializeError where
  | parseError : DeserializeError
  | invalidSchema : DeserializeError
deriving Repr, DecidableEq

/-- `DataStore.deserialize(raw)`.

* `JSON.parse(raw)` throws on malformed bytes; `deserialize` does **not**
  catch that exception, so it escapes as a raw `SyntaxError`
  (`DeserializeError.parseError`) — the `try`/`catch` sits one level up,
  in `tryLoadFile`.
* The guard `typeof parsed !== 'object' || parsed === null ||
  typeof parsed.version !== 'number'` throws
  `new Error('Invalid storage schema')` (`DeserializeError.invalidSchema`).
  Any *number* passes it — the value of `version` is never compared
  against known versions.
* Sessions and captures are rebuilt entry by entry (`sessions[id] = …`),
  dates revived via `new Date`; `sessionsByProject` passes through. -/
def deserialize (b : Bytes) : Except DeserializeError StorageSchema :=
  match b with
  | .malformed => .error .parseError
  | .json parsed =>
    match getField parsed "version" with
    | some (.jnum n) =>
      .ok { sessions :=
              (objEntries ((getField parsed "sessions").getD (.jobj []))).foldl
                (fun acc p => updA p.1 (deserializeSession p.2) acc) []
            sessionsByProject :=
              (objEntries ((getField parsed "sessionsByProject").getD (.jobj []))).map
                (fun p => (p.1, asStrList p.2))
            captures :=
              (objEntries ((getField parsed "captures").getD (.jobj []))).foldl
                (fun acc p => updA p.1 (deserializeCapture p.2) acc) []
            version := n }
    | _ => .error .invalidSchema

/-! ## The Store Facade (in-memory state) -/

/-- The mutable state of a `DataStore` instance: the cached schema, the
dirty flag, and the failure listeners in registration order (listeners are
identified by a `Nat` handle; `onFailure` appends to the list). -/
structure Store where
  data : StorageSchema
  dirty : Bool
  listeners : List Nat
deriving Repr, DecidableEq

/-- The state after `new DataStore(dir)`. -/
def newStore : Store :=
  { data := createEmptySchema, dirty := false, listeners := [] }

/-- `DataStore.onFailure(listener)`. -/
def onFailure (st : Store) (l : Nat) : Store :=
  { st with listeners := st.listeners ++ [l] }

/-- `DataStore.saveSession(session)` on the schema: upsert into
`sessions`, then maintain the `sessionsByProject` index. -/
def saveSessionData (d : StorageSchema) (s : Session) : StorageSchema :=
  let sessions := updA s.id s d.sessions
  let idx :=
    match lookupA s.projectId d.sessionsByProject with
    | none => updA s.projectId [s.id] d.sessionsByProject
    | some l =>
      if s.id ∈ l then d.sessionsByProject
      else updA s.projectId (l ++ [s.id]) d.sessionsByProject
  { d with sessions := sessions, sessionsByProject := idx }

/-- `DataStore.saveSession(session)`: updates the schema and marks dirty. -/
def saveSession (st : Store) (s : Session) : Store :=
  { st with data := saveSessionData st.data s, dirty := true }

/-- `DataStore.getSession(sessionId)`. -/
def getSession (st : Store) (sessionId : String) : Option Session :=
  lookupA sessionId st.data.sessions

/-- `DataStore.getSessionsByProject(projectId)`:
`(this.data.sessionsByProject[projectId] ?? []).map(id => sessions[id]).filter(s => s !== undefined)`
(the `filter` with its type guard is `filterMap` over the mapped options). -/
def getSessionsByProject (st : Store) (projectId : String) : List Session :=
  (((lookupA projectId st.data.sessionsByProject).getD []).map
    (fun id => lookupA id st.data.sessions)).filterMap (fun x => x)

/-- `DataStore.saveCapture(capture)`. -/
def saveCapture (st : Store) (c : Capture) : Store :=
  { st with
    data := { st.data with captures := updA c.id c st.data.captures }
    dirty := true }

/-- `DataStore.getCapture(captureId)`. -/
def getCapture (st : Store) (captureId : String) : Option Capture :=
  lookupA captureId st.data.captures

/-- `DataStore.saveFeedback(sessionId, rating, timestamp)`: a no-op when
the session does not exist; otherwise mutates the session's
`feedbackRating`/`feedbackTime` in place and marks dirty. -/
def saveFeedback (st : Store) (sessionId : String) (rating : Int)
    (timestamp : JSDate) : Store :=
  match lookupA sessionId st.data.sessions with
  | none => st
  | some s =>
    { st with
      data := { st.data with
        sessions := updA sessionId
          { s with feedbackRating := some rating, feedbackTime := some timestamp }
          st.data.sessions }
      dirty := true }

/-! ## The File Persistence Engine (`load` / `save`)

The data directory holds at most five fixed-name files; a file is
`none` when `fs.existsSync` is false for it. -/

/-- The on-disk state of the data directory. -/
structure DiskFS where
  dirExists : Bool
  main : Option Bytes      -- data.json
  temp : Option Bytes      -- data.temp.json
  b1 : Option Bytes        -- data.backup.1.json
  b2 : Option Bytes        -- data.backup.2.json
  b3 : Option Bytes        -- data.backup.3.json

/-- An empty, existing data directory. -/
def emptyDir : DiskFS :=
  { dirExists := true, main := none, temp := none, b1 := none, b2 := none,
    b3 := none }

/-- `DataStore.tryLoadFile(path)`: `null` when the file is absent, and the
surrounding `try`/`catch` turns any `deserialize` exception into `null`. -/
def tryLoadFile (file : Option Bytes) : Option StorageSchema :=
  match file with
  | none => none
  | some b => (deserialize b).toOption

/-- `DataStore.load()`: main file first, then `data.backup.1.json` …
`data.backup.3.json` in order, else a fresh empty schema.  Returns the
schema adopted into `this.data`; disk state is never mutated. -/
def loadRun (fs : DiskFS) : StorageSchema :=
  match tryLoadFile fs.main with
  | some d => d
  | none =>
    match tryLoadFile fs.b1 with
    | some d => d
    | none =>
      match tryLoadFile fs.b2 with
      | some d => d
      | none =>
        match tryLoadFile fs.b3 with
        | some d => d
        | none => createEmptySchema

/-- The file-system operations `save()` performs, in program order; a
failed save throws at exactly one of these steps. -/
inductive SaveStep where
  | mkdirStep : SaveStep      -- fs.mkdirSync(dataDir, { recursive: true })
  | writeTempStep : SaveStep  -- fs.writeFileSync(tempFile, json)
  | copyB2toB3 : SaveStep     -- fs.copyFileSync(backup.2, backup.3)
  | copyB1toB2 : SaveStep     -- fs.copyFileSync(backup.1, backup.2)
  | copyMainToB1 : SaveStep   -- fs.copyFileSync(data.json, backup.1)
  | renameStep : SaveStep     -- fs.renameSync(tempFile, mainFile)
deriving Repr, DecidableEq

/-- Fault injection: which file-system operations succeed during one
`save()` call (`true` = the operation succeeds if reached). -/
structure Faults where
  mkdirOk : Bool
  writeTempOk : Bool
  copy23Ok : Bool
  copy12Ok : Bool
  copyM1Ok : Bool
  renameOk : Bool
deriving Repr, DecidableEq

/-- A fault-free environment. -/
def allOk : Faults :=
  { mkdirOk := true, writeTempOk := true, copy23Ok := true, copy12Ok := true,
    copyM1Ok := true, renameOk := true }

/-- Result of one `save()` call: the disk and store afterwards, the step
that threw (if any), and the failure-listener invocations
`(listener, error)` that `notifyFailure` performed — in registration
order, synchronously before the error was re-thrown to the caller. -/
structure SaveResult where
  fs : DiskFS
  store : Store
  error : Option SaveStep
  notified : List (Nat × SaveStep)

/-- The `catch` block of `save()`: notify every registered listener with
the error, then re-throw it. -/
def failSave (fs : DiskFS) (st : Store) (e : SaveStep) : SaveResult :=
  { fs := fs, store := st, error := some e,
    notified := st.listeners.map (fun l => (l, e)) }

/-- `DataStore.save()` under fault injection `f`, with `now` the clock
used by `serialize`'s `new Date()` fallback:

1. create the directory if missing;
2. write `JSON.stringify(this.serialize(), null, 2)` to the temp file;
3. if the main file exists, rotate backups by whole-file copies
   (`backup.2 → backup.3`, `backup.1 → backup.2`, each only if the source
   exists, then unconditionally `data.json → backup.1`);
4. atomically rename the temp file onto the main file;
5. clear the dirty flag.

Any step that throws aborts the remainder, runs `notifyFailure`, and
re-throws. -/
def saveRun (f : Faults) (now : Nat) (st : Store) (fs0 : DiskFS) : SaveResult :=
  -- step 1: ensure directory exists
  if ¬ fs0.dirExists ∧ ¬ f.mkdirOk then failSave fs0 st .mkdirStep else
  let fs1 := { fs0 with dirExists := true }
  let json : Bytes := jsonStringify (serializeSchema now st.data)
  -- step 2: write temp file
  if ¬ f.writeTempOk then failSave fs1 st .writeTempStep else
  let fs2 := { fs1 with temp := some json }
  -- step 3: rotate backups if the main file exists
  match fs2.main with
  | some mainContent =>
    (match fs2.b2 with
     | some c2 =>
       if ¬ f.copy23Ok then failSave fs2 st .copyB2toB3 else
       let fs3 := { fs2 with b3 := some c2 }
       rotateRest f st fs3 mainContent json
     | none => rotateRest f st fs2 mainContent json)
  | none =>
    -- step 4: atomic rename
    if ¬ f.renameOk then failSave fs2 st .renameStep else
    { fs := { fs2 with main := some json, temp := none },
      store := { st with dirty := false }, error := none, notified := [] }
where
  /-- The remaining rotation copies (`backup.1 → backup.2`,
  `data.json → backup.1`) followed by the rename. -/
  rotateRest (f : Faults) (st : Store) (fs : DiskFS) (mainContent : Bytes)
      (json : Bytes) : SaveResult :=
    (match fs.b1 with
     | some c1 =>
       if ¬ f.copy12Ok then failSave fs st .copyB1toB2 else
       let fs' := { fs with b2 := some c1 }
       finishRotate f st fs' mainContent json
     | none => finishRotate f st fs mainContent json)
  /-- `data.json → backup.1`, then the rename and dirty-clear. -/
  finishRotate (f : Faults) (st : Store) (fs : DiskFS) (mainContent : Bytes)
      (json : Bytes) : SaveResult :=
    if ¬ f.copyM1Ok then failSave fs st .copyMainToB1 else
    let fs' := { fs with b1 := some mainContent }
    if ¬ f.renameOk then failSave fs' st .renameStep else
    { fs := { fs' with main := some json, temp := none },
      store := { st with dirty := false }, error := none, notified := [] }

/-- `DataStore.immediateSave()`: delegates to `save()`. -/
def immediateSaveRun (f : Faults) (now : Nat) (st : Store) (fs : DiskFS) :
    SaveResult :=
  saveRun f now st fs

/-! ## Valid schemas

A Schema is *valid* (in the sense of the Serializer round-trip contract)
when every timestamp is a real date in the modelled range and the
`sessions`/`captures` records have unique keys (as every JavaScript
object necessarily does). -/

/-- A valid `Date` value: not an Invalid Date, within the basic
ISO-format range. -/
def validDateB (d : JSDate) : Bool :=
  match d with
  | some t => decide (t < isoLimit)
  | none => false

/-- A valid optional `Date` field: absent, or a valid date. -/
def validOptDateB (d : Option JSDate) : Bool :=
  match d with
  | none => true
  | some d' => validDateB d'

def validSessionB (s : Session) : Bool :=
  validDateB s.entryTime && validOptDateB s.exitTime && validOptDateB s.feedbackTime

def validCaptureB (c : Capture) : Bool :=
  validDateB c.timestamp

def validSchemaB (d : StorageSchema) : Bool :=
  d.sessions.all (fun p => validSessionB p.2) &&
  decide ((d.sessions.map Prod.fst).Nodup) &&
  d.captures.all (fun p => validCaptureB p.2) &&
  decide ((d.captures.map Prod.fst).Nodup)

/-! ## Round-trip lemmas for the Serializer -/

theorem string_data_mk (l : List Char) : (String.mk l).data = l := rfl

theorem toISOString_ne_empty (t : Nat) : toISOString t ≠ "" := by
  simp [toISOString, String.ext_iff, toISOChars, pad4]

theorem jsNewDate_toISOString (t : Nat) (ht : t < isoLimit) :
    jsNewDate (some (.jstr (toISOString t))) = some t := by
  show parseISOChars (toISOString t).data = some t
  rw [toISOString, string_data_mk]
  exact parseISO_toISO t ht

theorem jsTruthy_toISOString (t : Nat) :
    jsTruthy (some (.jstr (toISOString t))) = true := by
  simp [jsTruthy, bne_iff_ne, toISOString_ne_empty]

theorem asStr_comp_jstr : asStr ∘ JValue.jstr = id := funext (fun _ => rfl)

theorem asStrList_map_jstr (l : List String) :
    asStrList (.jarr (l.map .jstr)) = l := by
  simp [asStrList, List.map_map, asStr_comp_jstr]

theorem asStrListOpt_map_jstr (l : List String) :
    asStrListOpt (.jarr (l.map .jstr)) = some l := by
  simp [asStrListOpt, List.map_map, asStr_comp_jstr]

theorem captureType_roundtrip (ct : CaptureType) :
    CaptureType.ofStr ct.toStr = ct := by
  cases ct <;> rfl

/-- Valid optional dates are absent or in-range. -/
theorem validOptDateB_cases (d : Option JSDate) (hd : validOptDateB d = true) :
    d = none ∨ ∃ u, d = some (some u) ∧ u < isoLimit := by
  rcases d with _ | ⟨_ | u⟩
  · exact Or.inl rfl
  · simp [validOptDateB, validDateB] at hd
  · exact Or.inr ⟨u, rfl, by simpa [validOptDateB, validDateB] using hd⟩

/-- Per-session round trip. -/
theorem session_roundtrip (now : Nat) (s : Session) (hv : validSessionB s = true) :
    deserializeSession (serializeSession now s) = s := by
  obtain ⟨sid, pid, et, ex, cid0, fr0, ft0⟩ := s
  simp only [validSessionB, Bool.and_eq_true] at hv
  obtain ⟨⟨h1, h2⟩, h3⟩ := hv
  rcases et with _ | te
  · simp [validDateB] at h1
  have hte : te < isoLimit := by simpa [validDateB] using h1
  rcases validOptDateB_cases ex h2 with rfl | ⟨tx, rfl, htx⟩ <;>
    rcases validOptDateB_cases ft0 h3 with rfl | ⟨tf, rfl, htf⟩ <;>
      rcases cid0 with _ | cid <;> rcases fr0 with _ | fr <;>
        simp [serializeSession, deserializeSession, optEntry, safeISOString,
          getField, objEntries, lookupA, asStr, jsNewDate_toISOString,
          jsTruthy_toISOString, jsTruthy, toISOString_ne_empty, hte, *]

theorem updA_append_new {α : Type} (k : String) (v : α) (acc : List (String × α))
    (h : k ∉ acc.map Prod.fst) : updA k v acc = acc ++ [(k, v)] := by
  induction acc with
  | nil => rfl
  | cons hd tl ih =>
    obtain ⟨k', v'⟩ := hd
    simp only [List.map_cons, List.mem_cons] at h
    push_neg at h
    have hne : ¬ (k' = k) := fun hh => h.1 hh.symm
    simp [updA, hne, ih h.2]

/-- Rebuilding a serialized record entry-by-entry (`rec[id] = de(v)`)
recovers the original record, provided keys are unique and each entry
round-trips. -/
theorem foldl_updA_roundtrip {α β : Type} (ser : String × α → β) (de : β → α) :
    ∀ l acc : List (String × α),
      (l.map Prod.fst).Nodup →
      (∀ p ∈ l, de (ser p) = p.2) →
      (∀ p ∈ l, p.1 ∉ acc.map Prod.fst) →
      (l.map (fun p => (p.1, ser p))).foldl (fun a q => updA q.1 (de q.2) a) acc
        = acc ++ l := by
  intro l
  induction l with
  | nil => intro acc _ _ _; simp
  | cons hd tl ih =>
    intro acc hnd h hdisj
    obtain ⟨k, a⟩ := hd
    have h1 : de (ser (k, a)) = a := h (k, a) (List.mem_cons_self _ _)
    have hk : k ∉ acc.map Prod.fst := hdisj (k, a) (List.mem_cons_self _ _)
    simp only [List.map_cons, List.foldl_cons, h1]
    rw [updA_append_new k a acc hk]
    simp only [List.map_cons, List.nodup_cons] at hnd
    rw [ih (acc ++ [(k, a)]) hnd.2 (fun p hp => h p (List.mem_cons_of_mem _ hp))
      (fun p hp => by
        simp only [List.map_append, List.mem_append, List.map_cons]
        rintro (hin | hin)
        · exact hdisj p (List.mem_cons_of_mem _ hp) hin
        · simp only [List.map_nil, List.mem_singleton] at hin
          exact hnd.1 (hin ▸ List.mem_map_of_mem Prod.fst hp))]
    simp

theorem ce_roundtrip (ce : ContextElements) :
    deserializeCE (serializeCE ce) = ce := by
  obtain ⟨i0, l0, o0, n0, oi⟩ := ce
  rcases i0 with _ | il <;> rcases l0 with _ | ll <;> rcases o0 with _ | ol <;>
    rcases n0 with _ | nl <;>
    simp [serializeCE, deserializeCE, optEntry, getField, objEntries, lookupA,
      asStr, asStrListOpt_map_jstr]

theorem capture_roundtrip (now : Nat) (c : Capture) (hv : validCaptureB c = true) :
    deserializeCapture (serializeCapture now c) = c := by
  obtain ⟨cid, sid, ty, oi, ce, ts⟩ := c
  rcases ts with _ | tt
  · simp [validCaptureB, validDateB] at hv
  have htt : tt < isoLimit := by simpa [validCaptureB, validDateB] using hv
  simp [serializeCapture, deserializeCapture, getField, objEntries, lookupA,
    asStr, safeISOString, jsNewDate_toISOString, htt, ce_roundtrip,
    captureType_roundtrip]

theorem idx_roundtrip (idx : List (String × List String)) :
    idx.map ((fun p => (p.1, asStrList p.2)) ∘
      fun p => (p.1, JValue.jarr (p.2.map .jstr))) = idx := by
  induction idx with
  | nil => rfl
  | cons hd tl ih => simp [asStrList_map_jstr, ih]

/-- Full Serializer round trip on valid schemas. -/
theorem deserialize_serialize (now : Nat) (d : StorageSchema)
    (hv : validSchemaB d = true) :
    deserialize (jsonStringify (serializeSchema now d)) = .ok d := by
  obtain ⟨ss, idx, cc, ver⟩ := d
  simp only [validSchemaB, Bool.and_eq_true, decide_eq_true_eq, List.all_eq_true] at hv
  obtain ⟨⟨⟨hvs, hnds⟩, hvc⟩, hndc⟩ := hv
  have hfs := foldl_updA_roundtrip (fun p => serializeSession now p.2)
    deserializeSession ss [] hnds
    (fun p hp => session_roundtrip now p.2 (hvs p hp)) (by simp)
  have hfc := foldl_updA_roundtrip (fun p => serializeCapture now p.2)
    deserializeCapture cc [] hndc
    (fun p hp => capture_roundtrip now p.2 (hvc p hp)) (by simp)
  simp only [List.nil_append] at hfs hfc
  simp [jsonStringify, deserialize, serializeSchema, getField, objEntries,
    lookupA, idx_roundtrip, hfs, hfc]

/-! ## Claims -/

/-- C1: Serializer round-trip: for every valid Schema `s` (valid
timestamps, fields conforming to the Session/Capture/ContextElements
model — in particular unique record keys), deserializing the serialized
bytes recovers `s` field-for-field, including absent optional fields
(`exitTime`, `captureId`, `feedbackRating`, `feedbackTime`, the four
`ContextElements` arrays) and sub-second (millisecond) timestamp
precision.  `now` is the clock value read by `serialize`'s
`new Date()` fallback, which a valid schema never reaches. -/
theorem claim_C1_round_trip (now : Nat) (s : StorageSchema)
    (hv : validSchemaB s = true) :
    deserialize (jsonStringify (serializeSchema now s)) = .ok s :=
  deserialize_serialize now s hv

/-- A sample valid schema: session `s1` exercises every absent optional
field plus millisecond precision (`…123`); session `s2` has every
optional present; capture `c1` has two of the four arrays absent. -/
def sessA : Session :=
  { id := "s1", projectId := "p1", entryTime := some 1700000000123,
    exitTime := none, captureId := none, feedbackRating := none,
    feedbackTime := none }

def sessB : Session :=
  { id := "s2", projectId := "p1", entryTime := some 1700000001000,
    exitTime := some (some 1700000002999), captureId := some "c1",
    feedbackRating := some 4, feedbackTime := some (some 1700000003500) }

def capA : Capture :=
  { id := "c1", sessionId := "s1", type := .interrupt,
    originalInput := "fix the flaky test",
    contextElements :=
      { intent := some ["finish"], lastAction := none,
        openLoops := some ["a", "b"], nextAction := none,
        originalInput := "fix the flaky test" },
    timestamp := some 1700000004001 }

def sampleSchema : StorageSchema :=
  { sessions := [("s1", sessA), ("s2", sessB)],
    sessionsByProject := [("p1", ["s1", "s2"])],
    captures := [("c1", capA)], version := 1 }

theorem claim_C1_round_trip_witness :
    validSchemaB sampleSchema = true ∧
      deserialize (jsonStringify (serializeSchema 0 sampleSchema)) =
        .ok sampleSchema :=
  ⟨by decide, claim_C1_round_trip 0 sampleSchema (by decide)⟩

/-- C7 (counterexample): the claim fails on the code twice over.
A byte string rejected by `JSON.parse` (e.g. `"BAD"`, here
`Bytes.malformed`) makes `deserialize` surface the *raw parse exception* —
the `JSON.parse` call is not inside any `try` in `deserialize`, so no
`InvalidSchema` error is produced for it.  And `version` is only checked
to be a *number*: the unknown version `2` (the only known version is
`CURRENT_SCHEMA_VERSION = 1`) is accepted and `deserialize` succeeds. -/
theorem claim_C7_counterexample :
    deserialize Bytes.malformed = .error .parseError ∧
    DeserializeError.parseError ≠ DeserializeError.invalidSchema ∧
    deserialize (.json (.jobj [("version", .jnum 2)])) =
      .ok { sessions := [], sessionsByProject := [], captures := [],
            version := 2 } :=
  ⟨rfl, by decide, rfl⟩

/-- C7 (amended): `deserialize` verifies that a `version` field exists and
is a *number* — any number is accepted, not only known versions — and a
missing or wrong-typed `version` surfaces as the single
`Error('Invalid storage schema')`; but an exception during JSON parsing
is *not* converted: it escapes `deserialize` as the raw parse exception
(caught one level up, by `tryLoadFile`, during the load fallback
chain). -/
theorem deserialize_json_no_parseError (v : JValue) :
    deserialize (.json v) ≠ .error .parseError := by
  unfold deserialize
  rcases hg : getField v "version" with _ | jv
  · simp [hg]
  · rcases jv <;> simp [hg]

theorem deserialize_json_ok_iff (v : JValue) :
    (∃ d, deserialize (.json v) = .ok d) ↔
      ∃ n, getField v "version" = some (.jnum n) := by
  unfold deserialize
  rcases hg : getField v "version" with _ | jv
  · simp [hg]
  · rcases jv <;> simp [hg]

theorem claim_C7_amended (b : Bytes) :
    (deserialize b = .error .parseError ↔ b = .malformed) ∧
    (∀ v, b = .json v →
      ((∃ d, deserialize b = .ok d) ↔ ∃ n, getField v "version" = some (.jnum n))) := by
  rcases b with v | _
  · refine ⟨⟨fun h => absurd h (deserialize_json_no_parseError v), fun h => by cases h⟩,
      fun w hw => ?_⟩
    injection hw with hww
    subst hww
    exact deserialize_json_ok_iff _
  · exact ⟨⟨fun _ => rfl, fun _ => rfl⟩, fun v h => by cases h⟩

theorem claim_C7_amended_witness :
    (∃ d, deserialize (.json (.jobj [("version", .jnum 1)])) = .ok d) ∧
      deserialize Bytes.malformed = .error .parseError :=
  ⟨((claim_C7_amended (.json (.jobj [("version", .jnum 1)]))).2 _ rfl).mpr
      ⟨1, rfl⟩,
    (claim_C7_amended Bytes.malformed).1.mpr rfl⟩

/-- C8: `saveSession` upserts the session into `sessions`; a project id
new to `sessionsByProject` gets a fresh index entry `[s.id]`; and
starting from any store whose index entry for the project contains the
session id at most once (every store the facade itself builds), after one
or two (hence any number of) saves the index contains the id exactly
once — re-saving never duplicates the index entry. -/
theorem claim_C8_idempotent_index (st : Store) (s : Session)
    (h : ((lookupA s.projectId st.data.sessionsByProject).getD []).count s.id ≤ 1) :
    getSession (saveSession st s) s.id = some s ∧
    (lookupA s.projectId st.data.sessionsByProject = none →
      lookupA s.projectId (saveSession st s).data.sessionsByProject = some [s.id]) ∧
    ((lookupA s.projectId (saveSession st s).data.sessionsByProject).getD []).count
      s.id = 1 ∧
    ((lookupA s.projectId
        (saveSession (saveSession st s) s).data.sessionsByProject).getD []).count
      s.id = 1 := by
  unfold getSession saveSession saveSessionData
  rcases hidx : lookupA s.projectId st.data.sessionsByProject with _ | l
  · refine ⟨lookupA_updA_self _ _ _, fun _ => by simp [hidx, lookupA_updA_self],
      ?_, ?_⟩
    · simp [hidx, lookupA_updA_self]
    · simp [hidx, lookupA_updA_self]
  · rw [hidx] at h
    simp only [Option.getD_some] at h
    by_cases hmem : s.id ∈ l
    · have hc1 : List.count s.id l = 1 := by
        have h0 : List.count s.id l ≠ 0 := by
          simpa [List.count_eq_zero] using hmem
        omega
      refine ⟨lookupA_updA_self _ _ _, fun hno => by simp at hno, ?_, ?_⟩
      · simp [hidx, hmem, hc1]
      · simp [hidx, hmem, hc1]
    · have hc0 : List.count s.id l = 0 := List.count_eq_zero.mpr hmem
      refine ⟨lookupA_updA_self _ _ _, fun hno => by simp at hno, ?_, ?_⟩
      · simp [hidx, hmem, lookupA_updA_self, List.count_append, hc0]
      · simp [hidx, hmem, lookupA_updA_self, List.count_append, hc0]

def storeA : Store := { data := sampleSchema, dirty := false, listeners := [] }

theorem claim_C8_idempotent_index_witness :
    ((lookupA "p1" storeA.data.sessionsByProject).getD []).count "s1" ≤ 1 ∧
    ((lookupA "p1" (saveSession storeA sessA).data.sessionsByProject).getD []).count
      "s1" = 1 ∧
    ((lookupA "p1"
        (saveSession (saveSession storeA sessA) sessA).data.sessionsByProject).getD
          []).count "s1" = 1 := by
  have h := claim_C8_idempotent_index storeA sessA (by decide)
  exact ⟨by decide, h.2.2.1, h.2.2.2⟩

/-- C9: `saveFeedback` contract.  When no session with the given id
exists it is a no-op (not an error): the store — schema, dirty flag,
listeners — is returned unchanged.  Otherwise only
`feedbackRating`/`feedbackTime` of that session change (the record update
keeps every other field of the session), every other session and every
other part of the store are untouched, and the dirty flag is set. -/
theorem claim_C9_saveFeedback_contract (st : Store) (sid : String) (r : Int)
    (ts : JSDate) :
    (lookupA sid st.data.sessions = none → saveFeedback st sid r ts = st) ∧
    (∀ s, lookupA sid st.data.sessions = some s →
      lookupA sid (saveFeedback st sid r ts).data.sessions =
        some { s with feedbackRating := some r, feedbackTime := some ts } ∧
      (∀ k, k ≠ sid →
        lookupA k (saveFeedback st sid r ts).data.sessions =
          lookupA k st.data.sessions) ∧
      (saveFeedback st sid r ts).data.sessionsByProject =
        st.data.sessionsByProject ∧
      (saveFeedback st sid r ts).data.captures = st.data.captures ∧
      (saveFeedback st sid r ts).data.version = st.data.version ∧
      (saveFeedback st sid r ts).listeners = st.listeners ∧
      (saveFeedback st sid r ts).dirty = true) := by
  constructor
  · intro h
    unfold saveFeedback
    rw [h]
  · intro s hs
    unfold saveFeedback
    rw [hs]
    exact ⟨lookupA_updA_self _ _ _, fun k hk => lookupA_updA_ne _ _ _ hk _,
      rfl, rfl, rfl, rfl, rfl⟩

theorem claim_C9_saveFeedback_contract_witness :
    saveFeedback storeA "missing" 5 (some 1700000005000) = storeA ∧
    lookupA "s1" (saveFeedback storeA "s1" 5 (some 1700000005000)).data.sessions =
      some { sessA with feedbackRating := some 5, feedbackTime := some (some 1700000005000) } ∧
    (saveFeedback storeA "s1" 5 (some 1700000005000)).dirty = true := by
  have h1 := (claim_C9_saveFeedback_contract storeA "missing" 5
    (some 1700000005000)).1 (by decide)
  have h2 := (claim_C9_saveFeedback_contract storeA "s1" 5
    (some 1700000005000)).2 sessA (by decide)
  exact ⟨h1, h2.1, h2.2.2.2.2.2.2⟩

/-- C10 (implicit): `getSessionsByProject` returns exactly the sessions
whose id appears in the project's index entry *and* is present in the
`sessions` map, in index order — `filterMap` states precisely that an
indexed id with no matching session is skipped silently, leaving no gap
and raising no error — and an unknown project yields `[]`. -/
theorem claim_C10_dangling_index (st : Store) (pid : String) :
    getSessionsByProject st pid =
      ((lookupA pid st.data.sessionsByProject).getD []).filterMap
        (fun id => lookupA id st.data.sessions) ∧
    (lookupA pid st.data.sessionsByProject = none →
      getSessionsByProject st pid = []) := by
  constructor
  · unfold getSessionsByProject
    rw [List.filterMap_map]
    rfl
  · intro h
    simp [getSessionsByProject, h]

def storeB : Store :=
  { data :=
      { sessions := [("s1", sessA), ("s2", sessB)]
        sessionsByProject := [("p1", ["s1", "ghost", "s2"])]
        captures := []
        version := 1 }
    dirty := false
    listeners := [] }

theorem claim_C10_dangling_index_witness :
    getSessionsByProject storeB "p1" = [sessA, sessB] ∧
    getSessionsByProject storeB "nope" = [] := by
  have h1 := (claim_C10_dangling_index storeB "p1").1
  have h2 := (claim_C10_dangling_index storeB "nope").2 (by decide)
  exact ⟨h1.trans (by decide), h2⟩

/-- C2: load fallback chain.  If the primary file exists but fails to
deserialize, `load()` tries `backup.1`, `backup.2`, `backup.3` in that
order, stopping at the first that deserializes (`List.findSome?` of the
chain) and adopting its contents; if every backup also fails, the result
is a freshly-initialized empty schema whose `version` is the current
schema version `1`.  `loadRun` is a total function — `load()` never
throws (`tryLoadFile` catches every `deserialize` exception). -/
theorem claim_C2_load_fallback (fs : DiskFS) (bb : Bytes) (e : DeserializeError)
    (hm : fs.main = some bb) (hd : deserialize bb = .error e) :
    loadRun fs = (List.findSome? (fun x => x)
      [tryLoadFile fs.b1, tryLoadFile fs.b2, tryLoadFile fs.b3]).getD
        createEmptySchema ∧
    (tryLoadFile fs.b1 = none → tryLoadFile fs.b2 = none →
      tryLoadFile fs.b3 = none → loadRun fs = createEmptySchema) ∧
    createEmptySchema.version = CURRENT_SCHEMA_VERSION := by
  have hmain : tryLoadFile fs.main = none := by
    rw [hm]
    simp [tryLoadFile, hd, Except.toOption]
  refine ⟨?_, ?_, rfl⟩
  · unfold loadRun
    rcases h1 : tryLoadFile fs.b1 with _ | d1 <;>
      rcases h2 : tryLoadFile fs.b2 with _ | d2 <;>
        rcases h3 : tryLoadFile fs.b3 with _ | d3 <;>
          simp [hmain, h1, h2, h3, List.findSome?]
  · intro h1 h2 h3
    unfold loadRun
    simp [hmain, h1, h2, h3]

/-- The schema `{ version: 5 }` deserializes to (an otherwise empty
schema tagged with version 5) — distinguishable from `createEmptySchema`. -/
def schemaV5 : StorageSchema :=
  { sessions := [], sessionsByProject := [], captures := [], version := 5 }

def fsC2 : DiskFS :=
  { dirExists := true, main := some .malformed, temp := none,
    b1 := some (.json (.jobj [("version", .jnum 5)])), b2 := none, b3 := none }

theorem claim_C2_load_fallback_witness :
    loadRun fsC2 = schemaV5 ∧
    createEmptySchema.version = CURRENT_SCHEMA_VERSION := by
  have h := claim_C2_load_fallback fsC2 .malformed .parseError rfl rfl
  exact ⟨h.1.trans (by rfl), h.2.2⟩

/-- C4 (counterexample): the code has no "consult backups on
missing-primary" configuration at all — when the primary file is absent,
`load()` *always* falls through to the backups.  A directory with no
`data.json` but a valid `backup.1` yields that backup's contents (a
schema with version 5 here), not the empty schema the claim demands. -/
def fsC4 : DiskFS :=
  { dirExists := true, main := none, temp := none,
    b1 := some (.json (.jobj [("version", .jnum 5)])), b2 := none, b3 := none }

theorem claim_C4_counterexample :
    fsC4.main = none ∧
    loadRun fsC4 = schemaV5 ∧
    loadRun fsC4 ≠ createEmptySchema :=
  ⟨rfl, rfl, by decide⟩

/-- C4 (amended): if the primary file is absent, `load()` treats this as
"no data yet" (not a failure) and — unconditionally, there being no
configuration option — consults `backup.1`, `backup.2`, `backup.3` in
order, returning an empty schema only when they all fail. -/
theorem claim_C4_amended (fs : DiskFS) (h : fs.main = none) :
    loadRun fs = (List.findSome? (fun x => x)
      [tryLoadFile fs.b1, tryLoadFile fs.b2, tryLoadFile fs.b3]).getD
        createEmptySchema := by
  have hmain : tryLoadFile fs.main = none := by rw [h]; rfl
  unfold loadRun
  rcases h1 : tryLoadFile fs.b1 with _ | d1 <;>
    rcases h2 : tryLoadFile fs.b2 with _ | d2 <;>
      rcases h3 : tryLoadFile fs.b3 with _ | d3 <;>
        simp [hmain, h1, h2, h3, List.findSome?]

theorem claim_C4_amended_witness :
    loadRun fsC4 = schemaV5 :=
  (claim_C4_amended fsC4 rfl).trans (by rfl)

/-- C5: backup depth.  Starting from an empty data directory, three
successive successful saves of snapshots `a`, `b`, `c` leave the primary
holding `c`, `backup.1` holding `b`, `backup.2` holding `a`, `backup.3`
nonexistent (so nothing older than `a` is reachable through any backup
file), and no staging file behind. -/
theorem claim_C5_backup_depth (a b c : StorageSchema) (n1 n2 n3 : Nat)
    (d1 d2 d3 : Bool) (l1 l2 l3 : List Nat) :
    (saveRun allOk n1 ⟨a, d1, l1⟩ emptyDir).error = none ∧
    (saveRun allOk n2 ⟨b, d2, l2⟩
      (saveRun allOk n1 ⟨a, d1, l1⟩ emptyDir).fs).error = none ∧
    (saveRun allOk n3 ⟨c, d3, l3⟩
      (saveRun allOk n2 ⟨b, d2, l2⟩
        (saveRun allOk n1 ⟨a, d1, l1⟩ emptyDir).fs).fs).error = none ∧
    (saveRun allOk n3 ⟨c, d3, l3⟩
        (saveRun allOk n2 ⟨b, d2, l2⟩
          (saveRun allOk n1 ⟨a, d1, l1⟩ emptyDir).fs).fs).fs =
      { dirExists := true,
        main := some (jsonStringify (serializeSchema n3 c)),
        temp := none,
        b1 := some (jsonStringify (serializeSchema n2 b)),
        b2 := some (jsonStringify (serializeSchema n1 a)),
        b3 := none } :=
  ⟨rfl, rfl, rfl, rfl⟩

/-- Shape of every `save()` run: it either throws at some step — having
run the `catch` block (`failSave`), with the primary file never yet
modified, and with all three backups also untouched when the throw
happened before rotation (at directory creation or staging write) — or
it succeeds, with no error and no listener notified. -/
theorem saveRun_shape (f : Faults) (now : Nat) (st : Store) (fs : DiskFS) :
    (∃ e fs', saveRun f now st fs = failSave fs' st e ∧ fs'.main = fs.main ∧
      ((e = SaveStep.mkdirStep ∨ e = SaveStep.writeTempStep) →
        fs'.b1 = fs.b1 ∧ fs'.b2 = fs.b2 ∧ fs'.b3 = fs.b3)) ∨
    ((saveRun f now st fs).error = none ∧ (saveRun f now st fs).notified = []) := by
  have hrest : ∀ (mc : Bytes) (fsr : DiskFS),
      (∃ e fs', saveRun.rotateRest f st fsr mc
          (jsonStringify (serializeSchema now st.data)) = failSave fs' st e ∧
        fs'.main = fsr.main ∧ e ≠ SaveStep.mkdirStep ∧
        e ≠ SaveStep.writeTempStep) ∨
      ((saveRun.rotateRest f st fsr mc
          (jsonStringify (serializeSchema now st.data))).error = none ∧
        (saveRun.rotateRest f st fsr mc
          (jsonStringify (serializeSchema now st.data))).notified = []) := by
    intro mc fsr
    unfold saveRun.rotateRest saveRun.finishRotate
    dsimp only
    repeat' split
    all_goals first
      | exact Or.inr ⟨rfl, rfl⟩
      | exact Or.inl ⟨_, _, rfl, rfl, by decide, by decide⟩
  unfold saveRun
  by_cases h1 : ¬ fs.dirExists ∧ ¬ f.mkdirOk
  · rw [if_pos h1]
    exact Or.inl ⟨_, _, rfl, rfl, fun _ => ⟨rfl, rfl, rfl⟩⟩
  · rw [if_neg h1]
    by_cases h2 : ¬ f.writeTempOk
    · rw [if_pos h2]
      exact Or.inl ⟨_, _, rfl, rfl, fun _ => ⟨rfl, rfl, rfl⟩⟩
    · rw [if_neg h2]
      rcases hm : fs.main with _ | mc
      · simp only [hm]
        by_cases h6 : ¬ f.renameOk
        · rw [if_pos h6]
          exact Or.inl ⟨_, _, rfl, rfl,
            fun h => by rcases h with h | h <;> cases h⟩
        · rw [if_neg h6]
          exact Or.inr ⟨rfl, rfl⟩
      · simp only [hm]
        rcases hb2 : fs.b2 with _ | c2
        · simp only [hb2]
          rcases hrest mc _ with ⟨e, fs', heq, hmain', hne1, hne2⟩ | hok
          · exact Or.inl ⟨e, fs', heq, hmain',
              fun h => False.elim (h.elim (fun hh => hne1 hh) (fun hh => hne2 hh))⟩
          · exact Or.inr hok
        · simp only [hb2]
          by_cases h3 : ¬ f.copy23Ok
          · rw [if_pos h3]
            exact Or.inl ⟨_, _, rfl, rfl,
              fun h => by rcases h with h | h <;> cases h⟩
          · rw [if_neg h3]
            rcases hrest mc _ with ⟨e, fs', heq, hmain', hne1, hne2⟩ | hok
            · exact Or.inl ⟨e, fs', heq, hmain',
                fun h => False.elim (h.elim (fun hh => hne1 hh) (fun hh => hne2 hh))⟩
            · exact Or.inr hok

/-- A directory in which every file exists with distinct contents. -/
def fsC3 : DiskFS :=
  { dirExists := true, main := some (.json (.jnum 0)), temp := none,
    b1 := some (.json (.jnum 1)), b2 := some (.json (.jnum 2)),
    b3 := some (.json (.jnum 3)) }

def stC3 : Store := { data := createEmptySchema, dirty := true, listeners := [7] }

/-- Faults making the second rotation copy (`backup.1 → backup.2`) fail. -/
def faultsC3 : Faults := { allOk with copy12Ok := false }

/-- C3 (counterexample): a save that fails *during* backup rotation —
before the final rename — does **not** leave all backup files untouched.
With the `backup.1 → backup.2` copy failing, the already-performed
`backup.2 → backup.3` copy has overwritten `backup.3` (it now holds the
old `backup.2` contents instead of its previous, different contents). -/
theorem claim_C3_counterexample :
    (saveRun faultsC3 0 stC3 fsC3).error = some SaveStep.copyB1toB2 ∧
    SaveStep.copyB1toB2 ≠ SaveStep.renameStep ∧
    fsC3.b3 = some (.json (.jnum 3)) ∧
    (saveRun faultsC3 0 stC3 fsC3).fs.b3 = some (.json (.jnum 2)) ∧
    (saveRun faultsC3 0 stC3 fsC3).fs.b3 ≠ fsC3.b3 := by
  refine ⟨rfl, by decide, rfl, rfl, ?_⟩
  show ¬ (some (Bytes.json (JValue.jnum 2)) = some (Bytes.json (JValue.jnum 3)))
  simp

/-- C3 (amended): if `save()` fails at any step before the final rename,
the previous *primary* file is byte-for-byte untouched (indeed the
primary is untouched on every failure, the rename never having replaced
it), and the backups are also all untouched when the failure occurs
before rotation begins (directory creation or staging write); a failure
during rotation may leave later backup slots already rewritten.  The
typed error is propagated to the caller: the run ends with exactly that
error (`error = some e` models the re-thrown exception). -/
theorem claim_C3_amended (f : Faults) (now : Nat) (st : Store) (fs : DiskFS) :
    (∀ e, (saveRun f now st fs).error = some e →
      (saveRun f now st fs).fs.main = fs.main) ∧
    (∀ e, (saveRun f now st fs).error = some e →
      (e = SaveStep.mkdirStep ∨ e = SaveStep.writeTempStep) →
      (saveRun f now st fs).fs.b1 = fs.b1 ∧
        (saveRun f now st fs).fs.b2 = fs.b2 ∧
        (saveRun f now st fs).fs.b3 = fs.b3) := by
  rcases saveRun_shape f now st fs with ⟨e0, fs', heq, hmain, himp⟩ | ⟨hok, _⟩
  · constructor
    · intro e he
      rw [heq]
      exact hmain
    · intro e he hor
      rw [heq] at he
      simp only [failSave] at he
      rw [heq]
      injection he with he'
      subst he'
      exact himp hor
  · constructor
    · intro e he
      rw [hok] at he
      cases he
    · intro e he
      rw [hok] at he
      cases he

def faultsW : Faults := { allOk with writeTempOk := false }

theorem claim_C3_amended_witness :
    (saveRun faultsW 0 stC3 fsC3).error = some SaveStep.writeTempStep ∧
    (saveRun faultsW 0 stC3 fsC3).fs.main = fsC3.main ∧
    (saveRun faultsW 0 stC3 fsC3).fs.b1 = fsC3.b1 ∧
    (saveRun faultsW 0 stC3 fsC3).fs.b2 = fsC3.b2 ∧
    (saveRun faultsW 0 stC3 fsC3).fs.b3 = fsC3.b3 := by
  have h := claim_C3_amended faultsW 0 stC3 fsC3
  have hb := h.2 SaveStep.writeTempStep rfl (Or.inr rfl)
  exact ⟨rfl, h.1 SaveStep.writeTempStep rfl, hb.1, hb.2.1, hb.2.2⟩

/-- C6: when a `save()` — explicit, autosave-scheduled, or via
`immediateSave()` which delegates to `save()` — fails, the `catch` block
runs `notifyFailure` before re-throwing: every registered failure
listener, in registration order, is invoked exactly once with that very
error, synchronously before the error reaches the caller (the `notified`
trace is complete when the run ends with `error = some e`); a successful
save notifies nobody.  `onFailure` appends to the listener list, so any
number of listeners can be registered and all of them are invoked. -/
theorem claim_C6_failure_notification (f : Faults) (now : Nat) (st : Store)
    (fs : DiskFS) :
    (∀ e, (saveRun f now st fs).error = some e →
      (saveRun f now st fs).notified = st.listeners.map (fun l => (l, e))) ∧
    ((saveRun f now st fs).error = none → (saveRun f now st fs).notified = []) ∧
    (∀ e, (immediateSaveRun f now st fs).error = some e →
      (immediateSaveRun f now st fs).notified =
        st.listeners.map (fun l => (l, e))) ∧
    (∀ l, (onFailure st l).listeners = st.listeners ++ [l]) := by
  have key : ∀ e, (saveRun f now st fs).error = some e →
      (saveRun f now st fs).notified = st.listeners.map (fun l => (l, e)) := by
    intro e he
    rcases saveRun_shape f now st fs with ⟨e0, fs', heq, _, _⟩ | ⟨hok, hnot⟩
    · rw [heq] at he
      simp only [failSave] at he
      rw [heq]
      injection he with he'
      subst he'
      rfl
    · rw [hok] at he
      cases he
  refine ⟨key, ?_, key, fun l => rfl⟩
  intro hnone
  rcases saveRun_shape f now st fs with ⟨e0, fs', heq, _, _⟩ | ⟨_, hnot⟩
  · rw [heq] at hnone
    simp [failSave] at hnone
  · exact hnot

def stC6 : Store := { data := createEmptySchema, dirty := true, listeners := [5, 9] }

def faultsR : Faults := { allOk with renameOk := false }

theorem claim_C6_failure_notification_witness :
    (saveRun faultsR 0 stC6 emptyDir).error = some SaveStep.renameStep ∧
    (saveRun faultsR 0 stC6 emptyDir).notified =
      [(5, SaveStep.renameStep), (9, SaveStep.renameStep)] ∧
    (saveRun allOk 0 stC6 emptyDir).notified = [] := by
  have h1 := (claim_C6_failure_notification faultsR 0 stC6 emptyDir).1
    SaveStep.renameStep rfl
  have h2 := (claim_C6_failure_notification allOk 0 stC6 emptyDir).2.1 rfl
  exact ⟨rfl, h1.trans (by rfl), h2⟩
